import Mathlib

/-!
Verification development for the tokly-backend custom-domain workflow.

The TypeScript sources are embedded shallowly:
* JavaScript strings are Lean `String`s; where character-level reasoning is
  needed the underlying `List Char` is used.
* Each external call made by a handler (Mongo store lookups/updates, Vercel
  registrar calls, DNS lookups) is modelled by an explicit outcome supplied in
  an environment record; a registrar/store call that can throw is an `Except`.
* Handlers return the HTTP response they would send, paired with the ordered
  trace of side-effecting calls (registrar calls and store writes) they issued.
-/

/-- The `domainStatus` enumeration of a project
(src/src/types/project.ts, src/src/models/Project.ts). -/
inductive DomainStatus where
  | pending
  | added
  | verified
  | failed
  deriving DecidableEq, Repr

/-- The fields of a stored project record that the domain workflow reads or
writes (src/src/types/project.ts `Project`).  Optional TS fields are `Option`s. -/
structure Project where
  id : String
  projectName : String
  subdomain : String
  customDomain : Option String
  domainStatus : Option DomainStatus
  deriving DecidableEq, Repr

/-- A verification record as returned by the Vercel API
(src/src/types/project.ts `VercelDomainResponse.verification`). -/
structure VRec where
  rtype : String
  domain : String
  value : String
  reason : String
  deriving DecidableEq, Repr

/-- The registrar's domain record (src/src/types/project.ts
`VercelDomainResponse`); only the fields the workflow inspects are kept,
with TS-optional fields as `Option`s. -/
structure DomainInfo where
  name : String
  apexName : String
  verified : Option Bool
  verification : Option (List VRec)
  deriving DecidableEq, Repr

/-- An error thrown by the registrar client: `status` models
`error.response?.status` (absent when there was no HTTP response) and
`message` the JavaScript `Error.message`. -/
structure VercelError where
  status : Option Nat
  message : String
  deriving DecidableEq, Repr

/-- Embedding of JavaScript `Array.prototype.startsWith`-style prefix test on
character lists, used to build the substring test below. -/
def beginsWith : List Char → List Char → Bool
  | [], _ => true
  | _ :: _, [] => false
  | p :: ps, c :: cs => p == c && beginsWith ps cs

/-- Membership of `pat` as a contiguous run of `s`. -/
def containsSub (pat : List Char) : List Char → Bool
  | [] => beginsWith pat []
  | c :: cs => beginsWith pat (c :: cs) || containsSub pat cs

/-- Embedding of JavaScript `String.prototype.includes`. -/
def strIncludes (s pat : String) : Bool := containsSub pat.data s.data

/-- Embedding of JavaScript `String.prototype.toLowerCase`, character-wise. -/
def jsToLower (s : String) : String := String.mk (s.data.map Char.toLower)

/-- Embedding of JavaScript `String.prototype.trim` on the character list. -/
def jsTrim (l : List Char) : List Char :=
  ((l.dropWhile Char.isWhitespace).reverse.dropWhile Char.isWhitespace).reverse

/-- Embedding of JavaScript `String.prototype.split` with separator `"."`:
`"".split(".") = [""]`, and separators delimit possibly-empty fields. -/
def splitOnDot : List Char → List (List Char)
  | [] => [[]]
  | c :: rest =>
    if c = '.' then [] :: splitOnDot rest
    else
      match splitOnDot rest with
      | [] => [[c]]
      | p :: ps => (c :: p) :: ps

/-- `[a-zA-Z0-9]` of the validator's regex. -/
def isAlnum (c : Char) : Bool := c.isAlpha || c.isDigit

/-- `[a-zA-Z0-9-]` of the validator's regex. -/
def isLabelChar (c : Char) : Bool := isAlnum c || c == '-'

/-- Embedding of the regex atom `[a-zA-Z0-9]([a-zA-Z0-9-]{0,61}[a-zA-Z0-9])?`
applied to one dot-free label: a single alphanumeric, or an alphanumeric
followed by at most 61 label characters and a final alphanumeric. -/
def matchesLabelAtom : List Char → Bool
  | [] => false
  | [c] => isAlnum c
  | c :: rest =>
    isAlnum c && decide (rest.dropLast.length ≤ 61) && rest.dropLast.all isLabelChar &&
      (match rest.getLast? with
       | some d => isAlnum d
       | none => false)

/-- Embedding of the validator's anchored regex
`/^atom(\.atom)*$/` (src/unnamed/part_000 line 342).  Since the atom never
matches a dot, an anchored match decomposes the string uniquely at its dots,
so the regex holds exactly when every dot-separated field matches the atom
(the split is never empty, giving the mandatory first label). -/
def domainRegexTest (l : List Char) : Bool :=
  (splitOnDot l).all matchesLabelAtom

/-- The fixed denylist of the validator
(src/unnamed/part_000 lines 354-401), lowercased in the source. -/
def reservedDomains : List String :=
  ["localhost", "vercel.app", "vercel.com", "now.sh", "amazonaws.com",
   "cloudfront.net", "herokuapp.com", "netlify.app", "github.io", "gitlab.io",
   "firebaseapp.com", "appspot.com", "azurewebsites.net", "heroku.com",
   "herokuapp.com", "railway.app", "render.com", "supabase.co", "supabase.in",
   "supabase.io", "supabase.com", "planetscale.com", "neon.tech",
   "cockroachlabs.cloud", "mongodb.com", "mongodb.net", "redis.com",
   "redis.io", "redis.net", "redis.org", "redis.dev", "redis.tech",
   "redis.cloud", "redis.labs", "redis.enterprise", "redis.inc", "redis.io",
   "redis.net", "redis.org", "redis.dev", "redis.tech", "redis.cloud",
   "redis.labs", "redis.enterprise", "redis.inc", "tokly.io"]

/-- `reservedDomains` as character lists for comparison against lowered input. -/
def reservedDomainsChars : List (List Char) := reservedDomains.map String.data

/-- Spec-side definition (spec §4.1), for comparison with the validator
embedded from the source: a DNS label is 1–63 alphanumerics/hyphens with no
leading or trailing hyphen. -/
def dnsLabelSpec (l : List Char) : Bool :=
  decide (1 ≤ l.length) && decide (l.length ≤ 63) && l.all isLabelChar &&
    l.head?.elim false isAlnum && l.getLast?.elim false isAlnum

/-- Spec-side definition (spec §4.1): a syntactically well-formed domain is a
dot-separated sequence of DNS labels. -/
def domainSyntaxSpec (l : List Char) : Bool :=
  (splitOnDot l).all dnsLabelSpec

/-- Spec-side definition (spec §4.1): the domain is reserved when the full
domain or its top-level label is on the denylist, compared exact-string and
case-insensitively. -/
def reservedSpec (l : List Char) : Bool :=
  reservedDomainsChars.contains (l.map Char.toLower) ||
    reservedDomainsChars.contains ((splitOnDot (l.map Char.toLower)).getLastD [])

/-- Result of `VercelService.validateDomain`: `{ isValid, error? }`. -/
structure ValidationResult where
  isValid : Bool
  error : Option String
  deriving DecidableEq, Repr

namespace VercelService

/-- Embedding of `VercelService.validateDomain`
(src/unnamed/part_000 lines 336-422): empty/whitespace check, regex check,
length check, then denylist check of the full lowercased domain and of its
last dot-separated label (the TLD). -/
def validateDomain (domain : String) : ValidationResult :=
  let l := domain.data
  if (jsTrim l).length = 0 then
    ⟨false, some "Domain is required"⟩
  else if !domainRegexTest l then
    ⟨false, some "Invalid domain format"⟩
  else if 253 < l.length then
    ⟨false, some "Domain is too long"⟩
  else
    let lowered := l.map Char.toLower
    let domainParts := splitOnDot lowered
    let tld := domainParts.getLastD []
    if reservedDomainsChars.contains lowered then
      ⟨false, some "This domain is reserved and cannot be used"⟩
    else if reservedDomainsChars.contains tld then
      ⟨false, some "This TLD is reserved and cannot be used"⟩
    else
      ⟨true, none⟩

/-- The not-found signal recognised by `VercelService.isDomainAvailable`
(src/unnamed/part_000 lines 322-326): a 404 response status, or an error
message carrying the Vercel not-found markers. -/
def isNotFoundError (e : VercelError) : Bool :=
  e.status == some 404 || strIncludes e.message "not_found" ||
    strIncludes e.message "Project Domain not found"

/-- Embedding of `VercelService.isDomainAvailable`
(src/unnamed/part_000 lines 316-331), as a function of the outcome of the
`getDomain` fetch it wraps: success means the domain exists (not available);
a not-found failure means available; any other failure is re-thrown. -/
def isDomainAvailable (fetch : Except VercelError DomainInfo) :
    Except VercelError Bool :=
  match fetch with
  | .ok _ => .ok false
  | .error e => if isNotFoundError e then .ok true else .error e

/-- The two Vercel nameservers compared against the resolved set
(src/unnamed/part_000 lines 128-131). -/
def vercelNameservers : List String := ["ns1.vercel-dns.com", "ns2.vercel-dns.com"]

/-- Result of `VercelService.checkDomainVerificationStatus`. -/
structure CheckResult where
  verified : Bool
  verification : List VRec
  configuration : Option DomainInfo
  usingVercelDNS : Bool
  misconfigured : Bool
  deriving DecidableEq, Repr

/-- Embedding of `VercelService.checkDomainVerificationStatus`
(src/unnamed/part_000 lines 101-189), as a function of the outcomes of the
two external calls it makes: the registrar fetch and, when the registrar
reports the domain verified, the DNS nameserver resolution.  A failing DNS
lookup yields `usingVercelDNS = false`; a 404 from the registrar yields the
benign all-false result; any other fetch failure is re-thrown with the
error's message. -/
def checkDomainVerificationStatus (fetch : Except VercelError DomainInfo)
    (dns : Except String (List String)) : Except String CheckResult :=
  match fetch with
  | .ok domainInfo =>
    let verified := domainInfo.verified.getD false
    let usingVercelDNS :=
      if verified then
        match dns with
        | .ok nameservers =>
          nameservers.any (fun ns => vercelNameservers.contains (jsToLower ns))
        | .error _ => false
      else false
    .ok ⟨verified, domainInfo.verification.getD [], some domainInfo,
         usingVercelDNS, false⟩
  | .error e =>
    if e.status == some 404 then
      .ok ⟨false, [], none, false, false⟩
    else
      .error e.message

end VercelService

/-- The JSON envelope a handler sends: HTTP status, `success`, and the
`error` / `message` fields of the payload (other payload fields are not
inspected by any claim). -/
structure HttpResponse where
  status : Nat
  success : Bool
  error : Option String
  message : Option String
  deriving DecidableEq, Repr

/-- A side-effecting call issued by a handler: a registrar call or a store
write, in the order the handler issues them.  Store reads are effect-free. -/
inductive Eff where
  | vercelGetDomain (domain : String)
  | vercelAddDomain (domain : String)
  | vercelVerifyDomain (domain : String)
  | vercelCheckStatus (domain : String)
  | vercelRemoveDomain (domain : String)
  | storeUpdateProject (id : String) (customDomain : Option String)
      (domainStatus : DomainStatus)
  | storeUpdateDomainStatus (id : String) (domainStatus : DomainStatus)
  deriving DecidableEq, Repr

/-- Shorthand for the error envelope `{success:false, error, message}`. -/
def mkErr (status : Nat) (error message : String) : HttpResponse :=
  ⟨status, false, some error, some message⟩

namespace DomainController

/-- Outcomes of the external calls `addCustomDomain` can make, supplied as an
environment: the project lookup, the local custom-domain uniqueness probe,
the registrar fetch inside `isDomainAvailable`, the registrar `addDomain`,
the store update (null result means failure), and the compensating
`removeDomain`. -/
structure AddEnv where
  project : Option Project
  localAvailable : Bool
  getOutcome : Except VercelError DomainInfo
  addOutcome : Except String DomainInfo
  updateOk : Bool
  removeOutcome : Except String Unit
  deriving Repr

/-- Embedding of the `addCustomDomain` handler
(src/src/controllers/DomainController.ts lines 7-119).  The request body's
`projectId` and `domain` are `Option`s (absent/falsy is `none`).  A thrown
registrar error reaches the outer catch, which answers 500 with the error's
message.  On a failed store update the compensating `removeDomain` is
attempted and its outcome discarded (the source only logs it). -/
def addCustomDomain (projectId? domain? : Option String) (env : AddEnv) :
    HttpResponse × List Eff :=
  match projectId?, domain? with
  | some projectId, some domain =>
    match env.project with
    | none => (mkErr 404 "Project not found" "No project found with the provided ID", [])
    | some _project =>
      let domainValidation := VercelService.validateDomain domain
      if !domainValidation.isValid then
        (⟨400, false, some "Invalid domain", domainValidation.error⟩, [])
      else if !env.localAvailable then
        (mkErr 409 "Domain already in use"
          "This domain is already being used by another project", [])
      else
        match VercelService.isDomainAvailable env.getOutcome with
        | .error e =>
          (mkErr 500 "Internal server error" e.message, [Eff.vercelGetDomain domain])
        | .ok false =>
          (mkErr 409 "Domain not available" "This domain is already configured on Vercel",
           [Eff.vercelGetDomain domain])
        | .ok true =>
          match env.addOutcome with
          | .error msg =>
            (mkErr 500 "Internal server error" msg,
             [Eff.vercelGetDomain domain, Eff.vercelAddDomain domain])
          | .ok _vercelDomain =>
            let tr := [Eff.vercelGetDomain domain, Eff.vercelAddDomain domain,
                       Eff.storeUpdateProject projectId (some domain) DomainStatus.pending]
            if env.updateOk then
              (⟨200, true, none,
                some "Custom domain added successfully. Please configure your DNS settings."⟩,
               tr)
            else
              (mkErr 500 "Failed to update project" "Could not update project with custom domain",
               tr ++ [Eff.vercelRemoveDomain domain])
  | _, _ =>
    (mkErr 400 "Missing required fields" "Project ID and domain are required", [])

/-- Outcomes of the external calls `verifyDomain` can make: the project
lookup, the registrar `verifyDomain` trigger, the registrar fetch and DNS
lookup inside `checkDomainVerificationStatus`, and the store status update. -/
structure VerifyEnv where
  project : Option Project
  verifyOutcome : Except String DomainInfo
  fetchOutcome : Except VercelError DomainInfo
  dnsOutcome : Except String (List String)
  updateOk : Bool
  deriving Repr

/-- The status-specific rejection message of the verify handler
(src/src/controllers/DomainController.ts lines 184-191), reached only when
the status is not `added`. -/
def notReadyMessage : Option DomainStatus → String
  | some DomainStatus.pending =>
    "Domain is still being added to Vercel. Please wait a moment and try again."
  | some DomainStatus.verified => "Domain is already verified."
  | some DomainStatus.failed => "Domain addition failed. Please contact support."
  | _ => "Domain is not in the correct state for verification."

/-- The catch block of the verify handler
(src/src/controllers/DomainController.ts lines 281-304): picks the status
code and message from the thrown error's message. -/
def verifyCatch (msg : String) : HttpResponse :=
  if strIncludes msg "not_found" || strIncludes msg "Project Domain not found" then
    mkErr 404 "Domain verification failed"
      "Domain not found. Please ensure the domain is properly added to your Vercel project."
  else if strIncludes msg "verification" then
    mkErr 400 "Domain verification failed"
      "Domain verification failed. Please check your DNS settings and try again."
  else
    mkErr 500 "Domain verification failed" msg

/-- The success message of the verify handler
(src/src/controllers/DomainController.ts lines 267-272). -/
def verifySuccessMessage (r : VercelService.CheckResult) : String :=
  if r.verified && r.usingVercelDNS then
    "Domain verified successfully! Your project is now live with your custom domain."
  else if r.verified && !r.usingVercelDNS then
    "Domain is verified but not using Vercel DNS. Please update your nameservers to Vercel DNS."
  else
    "DNS verification failed. Please update your nameservers to Vercel DNS and try again."

/-- Embedding of the `verifyDomain` handler
(src/src/controllers/DomainController.ts lines 122-306): missing-field
checks, project lookup, domain-mismatch check, status-must-be-`added` check,
registrar verify trigger, verification-status check, and persistence of the
computed status (`verified` iff provider-verified and using Vercel DNS,
otherwise `added`). -/
def verifyDomain (projectId? domain? : Option String) (env : VerifyEnv) :
    HttpResponse × List Eff :=
  match projectId? with
  | none => (mkErr 400 "Missing project ID" "Project ID is required", [])
  | some projectId =>
    match domain? with
    | none => (mkErr 400 "Missing domain" "Domain is required", [])
    | some domain =>
      match env.project with
      | none => (mkErr 404 "Project not found" "No project found with the provided ID", [])
      | some project =>
        if project.customDomain ≠ some domain then
          (mkErr 400 "Domain mismatch"
            "The provided domain does not match the project\x27s custom domain", [])
        else if project.domainStatus ≠ some DomainStatus.added then
          (mkErr 400 "Domain not ready for verification" (notReadyMessage project.domainStatus),
           [])
        else
          match env.verifyOutcome with
          | .error msg => (verifyCatch msg, [Eff.vercelVerifyDomain domain])
          | .ok _vercelResponse =>
            match VercelService.checkDomainVerificationStatus env.fetchOutcome env.dnsOutcome with
            | .error msg =>
              (verifyCatch msg, [Eff.vercelVerifyDomain domain, Eff.vercelCheckStatus domain])
            | .ok domainStatus =>
              let status :=
                if domainStatus.verified && domainStatus.usingVercelDNS then
                  DomainStatus.verified
                else DomainStatus.added
              let tr := [Eff.vercelVerifyDomain domain, Eff.vercelCheckStatus domain,
                         Eff.storeUpdateDomainStatus projectId status]
              if env.updateOk then
                (⟨200, true, none, some (verifySuccessMessage domainStatus)⟩, tr)
              else
                (mkErr 500 "Failed to update project" "Could not update project domain status",
                 tr)

/-- Outcomes of the external calls `removeCustomDomain` can make: the project
lookup, the registrar `removeDomain`, and the store update. -/
structure RemoveEnv where
  project : Option Project
  removeOutcome : Except String Unit
  updateOk : Bool
  deriving Repr

/-- Embedding of the `removeCustomDomain` handler
(src/src/controllers/DomainController.ts lines 309-386).  The route
parameter `projectId` is present whenever the route matches, so it is a plain
`String`; the body's `domain` is optional.  A thrown `removeDomain` error
reaches the outer catch (hard failure aborts the transition). -/
def removeCustomDomain (projectId : String) (domain? : Option String)
    (env : RemoveEnv) : HttpResponse × List Eff :=
  match domain? with
  | none => (mkErr 400 "Missing domain" "Domain is required", [])
  | some domain =>
    match env.project with
    | none => (mkErr 404 "Project not found" "No project found with the provided ID", [])
    | some project =>
      if project.customDomain ≠ some domain then
        (mkErr 400 "Domain mismatch"
          "The provided domain does not match the project\x27s custom domain", [])
      else
        match env.removeOutcome with
        | .error msg =>
          (mkErr 500 "Internal server error" msg, [Eff.vercelRemoveDomain domain])
        | .ok _ =>
          let tr := [Eff.vercelRemoveDomain domain,
                     Eff.storeUpdateProject projectId none DomainStatus.verified]
          if env.updateOk then
            (⟨200, true, none, some "Custom domain removed successfully"⟩, tr)
          else
            (mkErr 500 "Failed to update project"
              "Could not update project after removing custom domain", tr)

end DomainController

/-!  Theorems.  Each claim of the specification is settled by one theorem
below; theorems with hypotheses come with a closed witness instantiation. -/

/-- Alphanumerics are label characters. -/
lemma isLabelChar_of_isAlnum {c : Char} (h : isAlnum c = true) :
    isLabelChar c = true := by
  simp [isLabelChar, h]

/-- The regex atom for one label agrees with the spec-side DNS-label
predicate. -/
lemma matchesLabelAtom_eq_dnsLabelSpec (l : List Char) :
    matchesLabelAtom l = dnsLabelSpec l := by
  match l with
  | [] => rfl
  | [c] =>
    simp only [matchesLabelAtom, dnsLabelSpec]
    cases h : isAlnum c <;>
      simp [h, isLabelChar_of_isAlnum, List.all]
  | c :: d :: rest =>
    obtain ⟨L, b, hLb⟩ : ∃ L b, d :: rest = L ++ [b] := by
      rcases (d :: rest).eq_nil_or_concat with h | ⟨L, b, h⟩
      · simp at h
      · exact ⟨L, b, by simpa [List.concat_eq_append] using h⟩
    simp only [matchesLabelAtom, dnsLabelSpec]
    rw [hLb]
    have hgl : (c :: (L ++ [b])).getLast? = some b := by
      rw [← List.cons_append]
      exact List.getLast?_concat _
    have hgl2 : (L ++ [b]).getLast? = some b := List.getLast?_concat _
    simp only [List.dropLast_concat, hgl, hgl2, List.head?_cons,
      List.length_cons, List.length_append, List.length_singleton,
      List.length_nil, List.all_cons, List.all_append, Option.elim]
    rw [Bool.eq_iff_iff]
    simp only [Bool.and_eq_true, decide_eq_true_eq, List.all_eq_true,
      List.mem_cons, List.mem_append, List.mem_singleton]
    constructor
    · rintro ⟨⟨⟨hc, hlen⟩, hall⟩, hb⟩
      refine ⟨⟨⟨⟨by omega, by omega⟩, isLabelChar_of_isAlnum hc, hall,
        isLabelChar_of_isAlnum hb, ?_⟩, hc⟩, hb⟩
      intro x hx
      exact absurd hx (List.not_mem_nil x)
    · rintro ⟨⟨⟨⟨h1, h2⟩, hlc, hall, hlb, _⟩, hc⟩, hb⟩
      exact ⟨⟨⟨hc, by omega⟩, hall⟩, hb⟩

/-- The validator's regex test agrees with the spec-side domain syntax. -/
lemma domainRegexTest_eq_domainSyntaxSpec (l : List Char) :
    domainRegexTest l = domainSyntaxSpec l := by
  have h : matchesLabelAtom = dnsLabelSpec := funext matchesLabelAtom_eq_dnsLabelSpec
  simp [domainRegexTest, domainSyntaxSpec, h]

/-- `splitOnDot` never returns the empty list. -/
lemma splitOnDot_ne_nil (l : List Char) : splitOnDot l ≠ [] := by
  match l with
  | [] => simp [splitOnDot]
  | c :: rest =>
    simp only [splitOnDot]
    by_cases hc : c = '.'
    · simp [hc]
    · simp only [hc, if_false]
      cases h : splitOnDot rest <;> simp

/-- Dropping a prefix cannot erase an element the predicate rejects. -/
lemma dropWhile_ne_nil_of_mem {p : Char → Bool} {l : List Char} {x : Char}
    (hx : x ∈ l) (hpx : p x = false) : l.dropWhile p ≠ [] := by
  induction l with
  | nil => simp at hx
  | cons a t ih =>
    by_cases ha : p a = true
    · rw [List.dropWhile_cons_of_pos ha]
      rcases List.mem_cons.mp hx with rfl | hxt
      · rw [hpx] at ha; cases ha
      · exact ih hxt
    · rw [List.dropWhile_cons_of_neg ha]
      simp

/-- Alphanumerics are not whitespace. -/
lemma not_isWhitespace_of_isAlnum {c : Char} (h : isAlnum c = true) :
    c.isWhitespace = false := by
  cases hw : c.isWhitespace
  · rfl
  · exfalso
    simp only [Char.isWhitespace, Bool.or_eq_true, decide_eq_true_eq] at hw
    rcases hw with ((rfl | rfl) | rfl) | rfl <;> exact absurd h (by decide)

/-- A syntactically well-formed domain starts with an alphanumeric. -/
lemma head_alnum_of_domainSyntaxSpec {l : List Char}
    (h : domainSyntaxSpec l = true) :
    ∃ c rest, l = c :: rest ∧ isAlnum c = true := by
  match l with
  | [] => simp [domainSyntaxSpec, splitOnDot, dnsLabelSpec] at h
  | c :: rest =>
    refine ⟨c, rest, rfl, ?_⟩
    simp only [domainSyntaxSpec, splitOnDot] at h
    by_cases hc : c = '.'
    · simp [hc, dnsLabelSpec] at h
    · simp only [hc, if_false] at h
      cases hs : splitOnDot rest with
      | nil => exact absurd hs (splitOnDot_ne_nil rest)
      | cons p ps =>
        rw [hs] at h
        simp only [List.all_cons, Bool.and_eq_true] at h
        have hl := h.1
        simp only [dnsLabelSpec, List.head?_cons, Option.elim_some,
          Bool.and_eq_true] at hl
        exact hl.1.2

/-- A syntactically well-formed domain survives the JavaScript trim. -/
lemma jsTrim_ne_nil_of_domainSyntaxSpec {l : List Char}
    (h : domainSyntaxSpec l = true) : jsTrim l ≠ [] := by
  obtain ⟨c, rest, rfl, hc⟩ := head_alnum_of_domainSyntaxSpec h
  have hw : c.isWhitespace = false := not_isWhitespace_of_isAlnum hc
  simp only [jsTrim]
  rw [List.dropWhile_cons_of_neg (by simp [hw])]
  intro hcontra
  have hmem : c ∈ (c :: rest).reverse := by simp
  have := dropWhile_ne_nil_of_mem hmem hw
  rw [List.reverse_eq_nil_iff] at hcontra
  exact this hcontra

/-- C6: `isDomainAvailable` returns true exactly when the `getDomain` fetch
fails with the not-found signal; it returns false when the fetch succeeds,
and propagates the error for any other failure. -/
theorem isDomainAvailable_true_iff_notFound (fetch : Except VercelError DomainInfo) :
    (VercelService.isDomainAvailable fetch = Except.ok true ↔
      ∃ e, fetch = Except.error e ∧ VercelService.isNotFoundError e = true) ∧
    (∀ v, fetch = Except.ok v → VercelService.isDomainAvailable fetch = Except.ok false) ∧
    (∀ e, fetch = Except.error e → VercelService.isNotFoundError e = false →
      VercelService.isDomainAvailable fetch = Except.error e) := by
  refine ⟨?_, ?_, ?_⟩
  · constructor
    · intro h
      cases fetch with
      | ok v => simp [VercelService.isDomainAvailable] at h
      | error e =>
        refine ⟨e, rfl, ?_⟩
        by_contra hne
        simp [VercelService.isDomainAvailable,
          Bool.eq_false_iff.mpr hne] at h
    · rintro ⟨e, rfl, hs⟩
      simp [VercelService.isDomainAvailable, hs]
  · rintro v rfl
    simp [VercelService.isDomainAvailable]
  · rintro e rfl hs
    simp [VercelService.isDomainAvailable, hs]

/-- Witness for C6: a 404-status error makes the domain available. -/
theorem isDomainAvailable_true_iff_notFound_witness :
    VercelService.isDomainAvailable
        (Except.error (⟨some 404, "Project Domain not found"⟩ : VercelError)) =
      Except.ok true :=
  ((isDomainAvailable_true_iff_notFound
      (Except.error ⟨some 404, "Project Domain not found"⟩)).1).2
    ⟨⟨some 404, "Project Domain not found"⟩, rfl, by decide⟩

/-- C8: `checkDomainVerificationStatus` converts benign failures into negative
results: a 404 from the provider yields the all-false result instead of an
error, and a failing DNS lookup yields `usingVercelDNS = false` instead of
propagating the DNS error. -/
theorem checkStatus_benign_failures (e : VercelError) (info : DomainInfo)
    (dns : Except String (List String)) (dnsErr : String)
    (h404 : e.status = some 404) :
    VercelService.checkDomainVerificationStatus (Except.error e) dns =
      Except.ok ⟨false, [], none, false, false⟩ ∧
    VercelService.checkDomainVerificationStatus (Except.ok info) (Except.error dnsErr) =
      Except.ok ⟨info.verified.getD false, info.verification.getD [], some info,
        false, false⟩ := by
  constructor
  · simp [VercelService.checkDomainVerificationStatus, h404]
  · simp only [VercelService.checkDomainVerificationStatus]
    cases hv : info.verified.getD false <;> simp [hv]

/-- Witness for C8 at a concrete 404 error, DNS failure, and domain info. -/
theorem checkStatus_benign_failures_witness :
    VercelService.checkDomainVerificationStatus
        (Except.error (⟨some 404, "Project Domain not found"⟩ : VercelError))
        (Except.ok ["ns1.vercel-dns.com"]) =
      Except.ok ⟨false, [], none, false, false⟩ ∧
    VercelService.checkDomainVerificationStatus
        (Except.ok (⟨"example.com", "example.com", some true, none⟩ : DomainInfo))
        (Except.error "ENOTFOUND") =
      Except.ok ⟨true, [], some ⟨"example.com", "example.com", some true, none⟩,
        false, false⟩ :=
  checkStatus_benign_failures ⟨some 404, "Project Domain not found"⟩
    ⟨"example.com", "example.com", some true, none⟩
    (Except.ok ["ns1.vercel-dns.com"]) "ENOTFOUND" rfl

/-- C10: every result of `checkDomainVerificationStatus` satisfies the
invariant that `usingVercelDNS = true` implies `verified = true`: the
nameserver lookup is only consulted when the provider already reports the
domain verified. -/
theorem checkStatus_usingDNS_implies_verified
    (fetch : Except VercelError DomainInfo) (dns : Except String (List String))
    (r : VercelService.CheckResult)
    (h : VercelService.checkDomainVerificationStatus fetch dns = Except.ok r)
    (hdns : r.usingVercelDNS = true) : r.verified = true := by
  cases fetch with
  | ok info =>
    simp only [VercelService.checkDomainVerificationStatus] at h
    cases hv : info.verified.getD false <;> simp [hv] at h <;>
      cases h <;> simp_all
  | error e =>
    simp only [VercelService.checkDomainVerificationStatus] at h
    by_cases h4 : (e.status == some 404) = true <;> simp [h4] at h
    cases h
    simp at hdns

/-- Witness for C10: a provider-verified domain resolving to a Vercel
nameserver yields `usingVercelDNS = true`, and the invariant gives
`verified = true`. -/
theorem checkStatus_usingDNS_implies_verified_witness :
    (VercelService.CheckResult.mk true [] (some ⟨"example.com", "example.com", some true, none⟩)
        true false).verified = true :=
  checkStatus_usingDNS_implies_verified
    (Except.ok ⟨"example.com", "example.com", some true, none⟩)
    (Except.ok ["ns1.vercel-dns.com"]) _ (by rfl) (by rfl)

/-- C1: on the attach path where validation, the local-uniqueness check, the
registrar-availability check, the registrar `addDomain`, and the store update
all succeed, the handler issues a single store update that sets
`customDomain` to the requested domain — but with `domainStatus = pending`,
not `added` as the specification states: at this concrete successful request
the one `storeUpdateProject` write carries `DomainStatus.pending`. -/
theorem attach_success_writes_pending_not_added :
    (DomainController.addCustomDomain (some "p1") (some "example.com")
        ⟨some ⟨"p1", "Project P", "projectp", none, some DomainStatus.verified⟩, true,
         Except.error ⟨some 404, "Project Domain not found"⟩,
         Except.ok ⟨"example.com", "example.com", some false, none⟩, true,
         Except.ok ()⟩).fst.status = 200 ∧
    (DomainController.addCustomDomain (some "p1") (some "example.com")
        ⟨some ⟨"p1", "Project P", "projectp", none, some DomainStatus.verified⟩, true,
         Except.error ⟨some 404, "Project Domain not found"⟩,
         Except.ok ⟨"example.com", "example.com", some false, none⟩, true,
         Except.ok ()⟩).snd =
      [Eff.vercelGetDomain "example.com", Eff.vercelAddDomain "example.com",
       Eff.storeUpdateProject "p1" (some "example.com") DomainStatus.pending] ∧
    DomainStatus.pending ≠ DomainStatus.added := by
  refine ⟨by decide, by decide, by decide⟩

/-- C2: for a verify request on a project whose status is `added` and whose
`customDomain` matches the request, when the registrar trigger and the
verification check both return, the handler issues exactly one store write,
whose status is `verified` iff the check reported both `verified = true`
and `usingVercelDNS = true`, and `added` in every other case. -/
theorem verify_persisted_status_iff
    (pid d : String) (env : DomainController.VerifyEnv) (p : Project)
    (vi : DomainInfo) (r : VercelService.CheckResult)
    (hp : env.project = some p)
    (hd : p.customDomain = some d)
    (hs : p.domainStatus = some DomainStatus.added)
    (hv : env.verifyOutcome = Except.ok vi)
    (hc : VercelService.checkDomainVerificationStatus env.fetchOutcome env.dnsOutcome =
      Except.ok r)
    (hu : env.updateOk = true) :
    (DomainController.verifyDomain (some pid) (some d) env).snd =
      [Eff.vercelVerifyDomain d, Eff.vercelCheckStatus d,
       Eff.storeUpdateDomainStatus pid
         (if r.verified && r.usingVercelDNS then DomainStatus.verified
          else DomainStatus.added)] ∧
    ((if r.verified && r.usingVercelDNS then DomainStatus.verified
      else DomainStatus.added) = DomainStatus.verified ↔
        (r.verified = true ∧ r.usingVercelDNS = true)) := by
  constructor
  · simp [DomainController.verifyDomain, hp, hd, hs, hv, hc, hu]
  · cases hb : r.verified <;> cases hb2 : r.usingVercelDNS <;> simp

/-- Witness for C2: a provider-verified domain on Vercel nameservers is
persisted as `verified`. -/
theorem verify_persisted_status_iff_witness :
    (DomainController.verifyDomain (some "p1") (some "example.com")
        ⟨some ⟨"p1", "Project P", "projectp", some "example.com", some DomainStatus.added⟩,
         Except.ok ⟨"example.com", "example.com", some true, none⟩,
         Except.ok ⟨"example.com", "example.com", some true, none⟩,
         Except.ok ["ns1.vercel-dns.com"], true⟩).snd =
      [Eff.vercelVerifyDomain "example.com", Eff.vercelCheckStatus "example.com",
       Eff.storeUpdateDomainStatus "p1" DomainStatus.verified] := by
  have h := verify_persisted_status_iff "p1" "example.com"
    ⟨some ⟨"p1", "Project P", "projectp", some "example.com", some DomainStatus.added⟩,
     Except.ok ⟨"example.com", "example.com", some true, none⟩,
     Except.ok ⟨"example.com", "example.com", some true, none⟩,
     Except.ok ["ns1.vercel-dns.com"], true⟩
    ⟨"p1", "Project P", "projectp", some "example.com", some DomainStatus.added⟩
    ⟨"example.com", "example.com", some true, none⟩
    ⟨true, [], some ⟨"example.com", "example.com", some true, none⟩, true, false⟩
    rfl rfl rfl rfl (by rfl) rfl
  simpa using h.1

/-- C3: a verify request on a found project whose `customDomain` matches but
whose `domainStatus` is not `added` is rejected with HTTP 400 and the
status-specific message, no registrar call is made, and no store write is
issued. -/
theorem verify_rejects_when_not_added
    (pid d : String) (env : DomainController.VerifyEnv) (p : Project)
    (st : DomainStatus)
    (hp : env.project = some p)
    (hd : p.customDomain = some d)
    (hs : p.domainStatus = some st)
    (hne : st ≠ DomainStatus.added) :
    DomainController.verifyDomain (some pid) (some d) env =
      (mkErr 400 "Domain not ready for verification"
        (DomainController.notReadyMessage (some st)), []) ∧
    (st = DomainStatus.pending → DomainController.notReadyMessage (some st) =
      "Domain is still being added to Vercel. Please wait a moment and try again.") ∧
    (st = DomainStatus.verified → DomainController.notReadyMessage (some st) =
      "Domain is already verified.") ∧
    (st = DomainStatus.failed → DomainController.notReadyMessage (some st) =
      "Domain addition failed. Please contact support.") := by
  refine ⟨?_, ?_, ?_, ?_⟩
  · simp [DomainController.verifyDomain, hp, hd, hs, hne]
  · rintro rfl; rfl
  · rintro rfl; rfl
  · rintro rfl; rfl

/-- Witness for C3: verify on a project whose status is `pending` is rejected
with the "still being added" message and an empty effect trace. -/
theorem verify_rejects_when_not_added_witness :
    DomainController.verifyDomain (some "p1") (some "example.com")
        ⟨some ⟨"p1", "Project P", "projectp", some "example.com", some DomainStatus.pending⟩,
         Except.ok ⟨"example.com", "example.com", some true, none⟩,
         Except.ok ⟨"example.com", "example.com", some true, none⟩,
         Except.ok ["ns1.vercel-dns.com"], true⟩ =
      (mkErr 400 "Domain not ready for verification"
        "Domain is still being added to Vercel. Please wait a moment and try again.", []) := by
  have h := verify_rejects_when_not_added "p1" "example.com"
    ⟨some ⟨"p1", "Project P", "projectp", some "example.com", some DomainStatus.pending⟩,
     Except.ok ⟨"example.com", "example.com", some true, none⟩,
     Except.ok ⟨"example.com", "example.com", some true, none⟩,
     Except.ok ["ns1.vercel-dns.com"], true⟩
    ⟨"p1", "Project P", "projectp", some "example.com", some DomainStatus.pending⟩
    DomainStatus.pending rfl rfl rfl (by decide)
  simpa using h.1

/-- C4: when the registrar `addDomain` succeeded but the store update fails,
the attach handler reports the failed-to-update-project 500 error, the
compensating `removeDomain` appears in the effect trace, and the whole
outcome is independent of the compensation's own outcome. -/
theorem attach_rollback_on_update_failure
    (pid d : String) (env : DomainController.AddEnv) (p : Project)
    (vi : DomainInfo) (r1 r2 : Except String Unit)
    (hp : env.project = some p)
    (hvalid : (VercelService.validateDomain d).isValid = true)
    (hlocal : env.localAvailable = true)
    (havail : VercelService.isDomainAvailable env.getOutcome = Except.ok true)
    (hadd : env.addOutcome = Except.ok vi)
    (hupd : env.updateOk = false) :
    (DomainController.addCustomDomain (some pid) (some d)
        { env with removeOutcome := r1 }).fst =
      mkErr 500 "Failed to update project" "Could not update project with custom domain" ∧
    Eff.vercelRemoveDomain d ∈
      (DomainController.addCustomDomain (some pid) (some d)
        { env with removeOutcome := r1 }).snd ∧
    DomainController.addCustomDomain (some pid) (some d) { env with removeOutcome := r1 } =
      DomainController.addCustomDomain (some pid) (some d) { env with removeOutcome := r2 } := by
  refine ⟨?_, ?_, ?_⟩ <;>
    simp [DomainController.addCustomDomain, hp, hvalid, hlocal, havail, hadd, hupd]

/-- Witness for C4: with a failing store update and a failing compensation,
the attach handler still answers the failed-to-update-project error and
attempted the registrar removal. -/
theorem attach_rollback_on_update_failure_witness :
    (DomainController.addCustomDomain (some "p1") (some "example.com")
        ⟨some ⟨"p1", "Project P", "projectp", none, some DomainStatus.verified⟩, true,
         Except.error ⟨some 404, "Project Domain not found"⟩,
         Except.ok ⟨"example.com", "example.com", some false, none⟩, false,
         Except.error "Failed to remove domain"⟩).fst =
      mkErr 500 "Failed to update project" "Could not update project with custom domain" ∧
    Eff.vercelRemoveDomain "example.com" ∈
      (DomainController.addCustomDomain (some "p1") (some "example.com")
        ⟨some ⟨"p1", "Project P", "projectp", none, some DomainStatus.verified⟩, true,
         Except.error ⟨some 404, "Project Domain not found"⟩,
         Except.ok ⟨"example.com", "example.com", some false, none⟩, false,
         Except.error "Failed to remove domain"⟩).snd := by
  have h := attach_rollback_on_update_failure "p1" "example.com"
    ⟨some ⟨"p1", "Project P", "projectp", none, some DomainStatus.verified⟩, true,
     Except.error ⟨some 404, "Project Domain not found"⟩,
     Except.ok ⟨"example.com", "example.com", some false, none⟩, false,
     Except.error "Failed to remove domain"⟩
    ⟨"p1", "Project P", "projectp", none, some DomainStatus.verified⟩
    ⟨"example.com", "example.com", some false, none⟩
    (Except.error "Failed to remove domain") (Except.ok ())
    rfl (by decide) rfl (by rfl) rfl rfl
  exact ⟨h.1, h.2.1⟩

/-- C5: a remove request whose supplied domain differs from the found
project's current `customDomain` is rejected with the Domain mismatch error,
and the handler issues no registrar call and no store write. -/
theorem remove_rejects_mismatch
    (pid d : String) (env : DomainController.RemoveEnv) (p : Project)
    (hp : env.project = some p)
    (hd : p.customDomain ≠ some d) :
    DomainController.removeCustomDomain pid (some d) env =
      (mkErr 400 "Domain mismatch"
        "The provided domain does not match the project\x27s custom domain", []) := by
  simp [DomainController.removeCustomDomain, hp, hd]

/-- Witness for C5: removing "example.com" from a project whose custom domain
is "other.com" fails with Domain mismatch and an empty effect trace. -/
theorem remove_rejects_mismatch_witness :
    DomainController.removeCustomDomain "p1" (some "example.com")
        ⟨some ⟨"p1", "Project P", "projectp", some "other.com", some DomainStatus.verified⟩,
         Except.ok (), true⟩ =
      (mkErr 400 "Domain mismatch"
        "The provided domain does not match the project\x27s custom domain", []) :=
  remove_rejects_mismatch "p1" "example.com"
    ⟨some ⟨"p1", "Project P", "projectp", some "other.com", some DomainStatus.verified⟩,
     Except.ok (), true⟩
    ⟨"p1", "Project P", "projectp", some "other.com", some DomainStatus.verified⟩
    rfl (by decide)

/-- C9: a verify request whose supplied domain differs from the found
project's `customDomain` is rejected with the Domain mismatch error before
any registrar call, with an empty effect trace. -/
theorem verify_rejects_mismatch
    (pid d : String) (env : DomainController.VerifyEnv) (p : Project)
    (hp : env.project = some p)
    (hd : p.customDomain ≠ some d) :
    DomainController.verifyDomain (some pid) (some d) env =
      (mkErr 400 "Domain mismatch"
        "The provided domain does not match the project\x27s custom domain", []) := by
  simp [DomainController.verifyDomain, hp, hd]

/-- Witness for C9: verifying "example.com" against a project whose custom
domain is "other.com" fails with Domain mismatch and an empty effect trace. -/
theorem verify_rejects_mismatch_witness :
    DomainController.verifyDomain (some "p1") (some "example.com")
        ⟨some ⟨"p1", "Project P", "projectp", some "other.com", some DomainStatus.added⟩,
         Except.ok ⟨"example.com", "example.com", some true, none⟩,
         Except.ok ⟨"example.com", "example.com", some true, none⟩,
         Except.ok ["ns1.vercel-dns.com"], true⟩ =
      (mkErr 400 "Domain mismatch"
        "The provided domain does not match the project\x27s custom domain", []) :=
  verify_rejects_mismatch "p1" "example.com"
    ⟨some ⟨"p1", "Project P", "projectp", some "other.com", some DomainStatus.added⟩,
     Except.ok ⟨"example.com", "example.com", some true, none⟩,
     Except.ok ⟨"example.com", "example.com", some true, none⟩,
     Except.ok ["ns1.vercel-dns.com"], true⟩
    ⟨"p1", "Project P", "projectp", some "other.com", some DomainStatus.added⟩
    rfl (by decide)

/-- C7: the pure validator returns invalid with the matching error message
when the input is empty/whitespace, malformed per DNS label syntax, longer
than 253 characters, or reserved (full domain or top-level label on the
denylist, case-insensitively); for every syntactically valid non-reserved
domain it returns valid.  The spec-side predicates `domainSyntaxSpec` and
`reservedSpec` state the claim's classes independently of the validator. -/
theorem validateDomain_matches_spec (s : String) :
    ((jsTrim s.data).length = 0 →
      VercelService.validateDomain s = ⟨false, some "Domain is required"⟩) ∧
    ((jsTrim s.data).length ≠ 0 → domainSyntaxSpec s.data = false →
      VercelService.validateDomain s = ⟨false, some "Invalid domain format"⟩) ∧
    (domainSyntaxSpec s.data = true → 253 < s.length →
      VercelService.validateDomain s = ⟨false, some "Domain is too long"⟩) ∧
    (domainSyntaxSpec s.data = true → s.length ≤ 253 →
      reservedSpec s.data = true →
      (VercelService.validateDomain s).isValid = false ∧
        ((VercelService.validateDomain s).error =
            some "This domain is reserved and cannot be used" ∨
          (VercelService.validateDomain s).error =
            some "This TLD is reserved and cannot be used")) ∧
    (domainSyntaxSpec s.data = true → s.length ≤ 253 →
      reservedSpec s.data = false →
      VercelService.validateDomain s = ⟨true, none⟩) := by
  refine ⟨?_, ?_, ?_, ?_, ?_⟩
  · intro h
    simp [VercelService.validateDomain, h]
  · intro h1 h2
    simp [VercelService.validateDomain, h1, domainRegexTest_eq_domainSyntaxSpec, h2]
  · intro h1 h2
    have ht0 : (jsTrim s.data).length ≠ 0 := by
      simpa [List.length_eq_zero] using jsTrim_ne_nil_of_domainSyntaxSpec h1
    simp [VercelService.validateDomain, ht0, domainRegexTest_eq_domainSyntaxSpec, h1, h2]
  · intro h1 h2 h3
    have ht0 : (jsTrim s.data).length ≠ 0 := by
      simpa [List.length_eq_zero] using jsTrim_ne_nil_of_domainSyntaxSpec h1
    have hlen : ¬ (253 < s.length) := by omega
    cases hfull : reservedDomainsChars.contains (s.data.map Char.toLower) with
    | true =>
      have hfull2 : s.data.map Char.toLower ∈ reservedDomainsChars := by
        simpa using hfull
      constructor <;>
        simp [VercelService.validateDomain, ht0, domainRegexTest_eq_domainSyntaxSpec,
          h1, hlen, hfull2]
    | false =>
      have hfull2 : s.data.map Char.toLower ∉ reservedDomainsChars := by
        simpa using hfull
      have htld : (splitOnDot (s.data.map Char.toLower)).getLast?.getD [] ∈
          reservedDomainsChars := by
        have h4 := h3
        simp only [reservedSpec, hfull, Bool.false_or] at h4
        simpa using h4
      constructor <;>
        simp [VercelService.validateDomain, ht0, domainRegexTest_eq_domainSyntaxSpec,
          h1, hlen, hfull2, htld]
  · intro h1 h2 h3
    have ht0 : (jsTrim s.data).length ≠ 0 := by
      simpa [List.length_eq_zero] using jsTrim_ne_nil_of_domainSyntaxSpec h1
    have hlen : ¬ (253 < s.length) := by omega
    simp only [reservedSpec, Bool.or_eq_false_iff] at h3
    have hfull2 : s.data.map Char.toLower ∉ reservedDomainsChars := by
      simpa using h3.1
    have htld2 : (splitOnDot (s.data.map Char.toLower)).getLast?.getD [] ∉
        reservedDomainsChars := by
      simpa using h3.2
    simp [VercelService.validateDomain, ht0, domainRegexTest_eq_domainSyntaxSpec,
      h1, hlen, hfull2, htld2]

/-- Witness for C7: a valid domain, a whitespace-only input, and a malformed
input, each checked through the characterization theorem. -/
theorem validateDomain_matches_spec_witness :
    VercelService.validateDomain "example.com" = ⟨true, none⟩ ∧
    VercelService.validateDomain "   " = ⟨false, some "Domain is required"⟩ ∧
    VercelService.validateDomain "foo..bar" = ⟨false, some "Invalid domain format"⟩ := by
  refine ⟨?_, ?_, ?_⟩
  · exact (validateDomain_matches_spec "example.com").2.2.2.2 (by decide) (by decide)
      (by decide)
  · exact (validateDomain_matches_spec "   ").1 (by decide)
  · exact (validateDomain_matches_spec "foo..bar").2.1 (by decide) (by decide)
